import Mathlib

/-!
Verification of the `workitem` repository (two JavaScript source files,
`gmail.js` and `workitem.js`, plus a main driver) against its
natural-language specification.

The JavaScript is promise-chained, effectful code.  We embed it shallowly:
every external effect (file read/write, HTTP round trip, the one interactive
operator prompt, the OAuth code exchange) is a parameter of the embedding —
an explicit "environment" record holding that effect's outcome — and each
source function becomes a total Lean function from its environment to an
`Except` value, together with counters for the observable side effects the
spec talks about (prompts, token-file writes) and records of the HTTP
requests it issues.  Thrown JS errors become constructors of `JsErr`, one
per distinct throw site or runtime-error kind reached by this code.
-/

/-- The distinct error values this program can propagate.  `enoent` is a
filesystem error whose `code` property is the string ENOENT (file absent);
`fsOther` is any other filesystem error; `parseError` a `JSON.parse`
failure; `typeError` a runtime TypeError from a property access on
`undefined`/`null`; `api` the thrown `Error('response status: ' + status)`;
`protocol` the thrown `Error('missing token and/or uri')`; `exchangeErr`
an error delivered by the OAuth2 `getToken` code-exchange callback;
`apiCallbackErr` an error delivered by a gmail API callback. -/
inductive JsErr where
  | enoent
  | fsOther (msg : String)
  | parseError (msg : String)
  | typeError (msg : String)
  | api (status : Nat)
  | protocol
  | exchangeErr (msg : String)
  | apiCallbackErr (msg : String)
  deriving DecidableEq, Repr

/-- The JS test `err.code === 'ENOENT'` from `authorize()`'s catch:
only filesystem not-found errors carry that code. -/
def JsErr.isEnoent : JsErr → Bool
  | .enoent => true
  | _ => false

/-! ### Base64 (the `btoa` and `atob` npm packages)

`workitem.js` builds its basic-auth key with `btoa` (base64 encode) and
`gmail.js` decodes message bodies with `atob`, which is
`Buffer.from(str, 'base64').toString('binary')`: Node's base64 decoder
accepts both the standard and the URL-safe alphabet and skips characters
outside it (including padding `=`). -/

def b64alphabet : List Char :=
  "ABCDEFGHIJKLMNOPQRSTUVWXYZabcdefghijklmnopqrstuvwxyz0123456789+/".data

def b64char (n : Nat) : Char := b64alphabet.getD n 'A'

/-- Base64-encode a byte list (standard alphabet, with padding). -/
def btoaBytes : List Nat → List Char
  | [] => []
  | [b1] => [b64char (b1 / 4), b64char (b1 % 4 * 16), '=', '=']
  | [b1, b2] => [b64char (b1 / 4), b64char (b1 % 4 * 16 + b2 / 16), b64char (b2 % 16 * 4), '=']
  | b1 :: b2 :: b3 :: rest =>
      b64char (b1 / 4) :: b64char (b1 % 4 * 16 + b2 / 16) ::
      b64char (b2 % 16 * 4 + b3 / 64) :: b64char (b3 % 64) :: btoaBytes rest

/-- The `btoa` package: base64 of the string's char codes. -/
def btoa (s : String) : String := ⟨btoaBytes (s.data.map Char.toNat)⟩

/-- Value of a base64 digit as Node's decoder sees it: standard alphabet
plus the URL-safe aliases `-` (62) and `_` (63); anything else (padding,
whitespace, garbage) is skipped. -/
def b64val (c : Char) : Option Nat :=
  if 'A' ≤ c ∧ c ≤ 'Z' then some (c.toNat - 65)
  else if 'a' ≤ c ∧ c ≤ 'z' then some (c.toNat - 97 + 26)
  else if '0' ≤ c ∧ c ≤ '9' then some (c.toNat - 48 + 52)
  else if c = '+' then some 62
  else if c = '/' then some 63
  else if c = '-' then some 62
  else if c = '_' then some 63
  else none

/-- Value of a base64url digit per the spec's words: URL-safe alphabet only. -/
def b64urlval (c : Char) : Option Nat :=
  if 'A' ≤ c ∧ c ≤ 'Z' then some (c.toNat - 65)
  else if 'a' ≤ c ∧ c ≤ 'z' then some (c.toNat - 97 + 26)
  else if '0' ≤ c ∧ c ≤ '9' then some (c.toNat - 48 + 52)
  else if c = '-' then some 62
  else if c = '_' then some 63
  else none

/-- Turn a list of 6-bit digit values into bytes, four digits to three
bytes, with Node's handling of a short final group (2 digits → 1 byte,
3 digits → 2 bytes, 1 digit → nothing). -/
def decodeQuads : List Nat → List Nat
  | a :: b :: c :: d :: rest =>
      (a * 4 + b / 16) :: (b % 16 * 16 + c / 4) :: (c % 4 * 64 + d) :: decodeQuads rest
  | [a, b, c] => [a * 4 + b / 16, b % 16 * 16 + c / 4]
  | [a, b] => [a * 4 + b / 16]
  | _ => []

/-- The `atob` package as used by `gmail.js`:
`Buffer.from(str, 'base64').toString('binary')`. -/
def atob (s : String) : String :=
  ⟨(decodeQuads (s.data.filterMap b64val)).map Char.ofNat⟩

/-- Modelled from the spec's words "base64url-decoded": strict base64url
decoding, defined only when every character is in the URL-safe alphabet.
Used to compare the source's `atob` against the spec's description. -/
def base64urlDecode (s : String) : Option String :=
  if s.data.all (fun c => (b64urlval c).isSome) then
    some ⟨(decodeQuads (s.data.filterMap b64urlval)).map Char.ofNat⟩
  else none

/-! ### `workitem.js`: the WorkItem class -/

/-- An outgoing HTTP request, as far as the spec's claims observe it:
the URL and the Authorization header value. -/
structure HttpRequest where
  url : String
  authHeader : String
  deriving DecidableEq, Repr

/-- A `fetch` response: `ok`, `status`, and the value `response.json()`
resolves to (`none` models a JSON `null` body). -/
structure FetchResp (J : Type) where
  ok : Bool
  status : Nat
  json : Option J
  deriving DecidableEq, Repr

/-- The token-endpoint JSON body.  JS reads `json.access_token` and
`json.resource_server_base_uri` only through truthiness tests and template
interpolation, and an absent field (`undefined`) and the empty string are
both falsy, so both are modelled as the empty string. -/
structure TokenJson where
  access_token : String
  resource_server_base_uri : String
  deriving DecidableEq, Repr

/-- The work-item endpoint JSON body; `contactId` is `none` when the field
is absent (JS `undefined`). -/
structure PostJson where
  contactId : Option String
  deriving DecidableEq, Repr

/-- The WorkItem class state set up by its constructor:
`this.key = btoa(app + '@' + vendor + ':' + key)` and `this.poc = poc`. -/
structure WorkItem where
  key : String
  poc : String
  deriving DecidableEq, Repr

/-- `new WorkItem(app, vendor, key, poc)`. -/
def WorkItem.make (app vendor key poc : String) : WorkItem :=
  { key := btoa (app ++ "@" ++ vendor ++ ":" ++ key), poc := poc }

/-- The request `getToken()` issues: a POST to the fixed token URL with
basic-auth header `'basic ' + this.key`. -/
def WorkItem.getTokenRequest (wi : WorkItem) : HttpRequest :=
  { url := "https://api.incontact.com/InContactAuthorizationServer/Token",
    authHeader := "basic " ++ wi.key }

/-- `getToken()` applied to the fetch response: non-ok responses throw
`'response status: ' + status`; an ok response whose JSON fails the
truthiness test `json && json.access_token && json.resource_server_base_uri`
throws `'missing token and/or uri'`; otherwise the JSON is returned. -/
def WorkItem.getToken (resp : FetchResp TokenJson) : Except JsErr TokenJson :=
  if resp.ok then
    match resp.json with
    | some j =>
        if j.access_token ≠ "" ∧ j.resource_server_base_uri ≠ "" then .ok j
        else .error .protocol
    | none => .error .protocol
  else .error (.api resp.status)

/-- The request `postWorkItem(workItemURL, token, ...)` issues: a POST to
`workItemURL` with bearer-auth header `'bearer ' + token`. -/
def WorkItem.postWorkItemRequest (workItemURL token : String) : HttpRequest :=
  { url := workItemURL, authHeader := "bearer " ++ token }

/-- `postWorkItem` applied to the fetch response: non-ok responses throw
`'response status: ' + status`; an ok response yields `json.contactId`
verbatim (absent field → `none`, i.e. JS `undefined`; a `null` JSON body
would raise a TypeError at the `.contactId` access). -/
def WorkItem.postWorkItem (resp : FetchResp PostJson) : Except JsErr (Option String) :=
  if resp.ok then
    match resp.json with
    | some j => .ok j.contactId
    | none => .error (.typeError "Cannot read property contactId of null")
  else .error (.api resp.status)

/-- The fixed API version in `sendEmail`. -/
def wiVersion : String := "v13.0"

/-- The work-item URL `sendEmail` builds:
`` `${data.resource_server_base_uri}services/${version}/interactions/work-items` ``
— direct string interpolation, no separator inserted after the base URI. -/
def workItemUrl (baseUri : String) : String :=
  baseUri ++ "services/" ++ wiVersion ++ "/interactions/work-items"

/-- What a run of `sendEmail` did: its result, and the work-item POST
request it issued (if the token fetch succeeded and it got that far). -/
structure SendTrace where
  result : Except JsErr (Option String)
  postRequest : Option HttpRequest
  deriving Repr

/-- `sendEmail(id, from, payload)`: fetch a token, build the work-item URL
from the token's base resource URI, POST the work item, return the contact
id; any failure propagates. -/
def WorkItem.sendEmail (tokenResp : FetchResp TokenJson)
    (postResp : FetchResp PostJson) : SendTrace :=
  match WorkItem.getToken tokenResp with
  | .error e => { result := .error e, postRequest := none }
  | .ok tokenData =>
      let url := workItemUrl tokenData.resource_server_base_uri
      { result := WorkItem.postWorkItem postResp,
        postRequest := some (WorkItem.postWorkItemRequest url tokenData.access_token) }

/-! ### `gmail.js`: the From-header address regex

`getMessage` extracts the sender with
`value.match(/([a-zA-Z0-9._-]+@[a-zA-Z0-9._-]+\.[a-zA-Z0-9._-]+)/gi)` and
takes element 0, the leftmost match.  We implement exactly this pattern's
JS matching semantics: at each start position, a greedy run of address
characters, a literal `@`, a greedy run that must contain a `.` at an
interior position (the backtracking of `X+\.X+` over a character class that
itself contains `.`), the whole match extending to the end of the run. -/

/-- The character class `[a-zA-Z0-9._-]` of the regex. -/
def isAddrChar (c : Char) : Bool :=
  ('a' ≤ c && c ≤ 'z') || ('A' ≤ c && c ≤ 'Z') || ('0' ≤ c && c ≤ '9') ||
  c = '.' || c = '_' || c = '-'

/-- Does the list contain a `.` that is not its last element?  Applied to
the part of the domain run after its first character, this is exactly the
condition under which `[...]+\.[...]+` matches the run: a `.` at index ≥ 1
with at least one character after it. -/
def dotNotLast : List Char → Bool
  | [] => false
  | '.' :: _ :: _ => true
  | _ :: rest => dotNotLast rest

/-- The domain run matches `[...]+\.[...]+`: nonempty, with an interior `.`. -/
def hasInteriorDot : List Char → Bool
  | [] => false
  | _ :: rest => dotNotLast rest

/-- One match attempt of the regex at the head of `l`: greedy local-part
run, `@`, greedy domain run containing an interior dot; the match is the
local run, the `@`, and the whole domain run. -/
def tryAt (l : List Char) : Option (List Char) :=
  if (l.takeWhile isAddrChar).isEmpty then none
  else
    match l.dropWhile isAddrChar with
    | '@' :: rest2 =>
        if hasInteriorDot (rest2.takeWhile isAddrChar) then
          some (l.takeWhile isAddrChar ++ '@' :: rest2.takeWhile isAddrChar)
        else none
    | _ => none

/-- The leftmost match of the address regex, as `value.match(...)[0]`:
try every start position left to right. -/
def findAddr : List Char → Option (List Char)
  | [] => none
  | c :: rest =>
      match tryAt (c :: rest) with
      | some m => some m
      | none => findAddr rest

/-! ### `gmail.js`: the Gmail class -/

/-- One entry of `res.data.payload.headers`. -/
structure Header where
  name : String
  value : String
  deriving DecidableEq, Repr

/-- `res.data.payload.body`; `data` is `none` when the message has no
inline body data field. -/
structure GmailBody where
  data : Option String
  deriving DecidableEq, Repr

/-- `res.data.payload`. -/
structure GmailPayload where
  headers : List Header
  body : GmailBody
  deriving DecidableEq, Repr

/-- `res.data` of a `users.messages.get` response. -/
structure GmailMsgData where
  id : String
  payload : GmailPayload
  deriving DecidableEq, Repr

/-- A `users.messages.get` response. -/
structure GmailGetRes where
  data : GmailMsgData
  deriving DecidableEq, Repr

/-- The custom object `getMessage` resolves with (the spec's MailMessage). -/
structure MailMessage where
  id : String
  sender : String
  payload : String
  deriving DecidableEq, Repr

/-- `getMessage(id)` applied to the outcome of the gmail API call.  A
callback error rejects and is re-thrown unchanged.  On a response, the
`From` header is looked up with an unguarded `.find(...).value` — absence
raises a TypeError; the sender (`from` in the source) is the regex's first
match, or the empty string when there is none; the payload is
`atob(body.data)` when that field is truthy, else the empty string. -/
def getMessage (res : Except JsErr GmailGetRes) : Except JsErr MailMessage :=
  match res with
  | .error e => .error e
  | .ok r =>
      match r.data.payload.headers.find? (fun o => o.name == "From") with
      | none => .error (.typeError "Cannot read property value of undefined")
      | some h =>
          let sender := match findAddr h.value.data with
                        | some m => String.mk m
                        | none => ""
          let payload := match r.data.payload.body.data with
                         | some s => if s ≠ "" then atob s else ""
                         | none => ""
          .ok { id := r.data.id, sender := sender, payload := payload }

/-- One element of `res.data.messages` of a `users.messages.list` response. -/
structure MsgRef where
  id : String
  deriving DecidableEq, Repr

/-- `res.data` of a `users.messages.list` response; the Gmail API omits
the `messages` field entirely on an empty inbox, modelled as `none`. -/
structure GmailListData where
  messages : Option (List MsgRef)
  deriving DecidableEq, Repr

/-- A `users.messages.list` response. -/
structure GmailListRes where
  data : GmailListData
  deriving DecidableEq, Repr

/-- `getMessageList()` applied to the outcome of the gmail API call:
returns `res.data.messages` verbatim; a callback error is re-thrown
unchanged. -/
def getMessageList (res : Except JsErr GmailListRes) :
    Except JsErr (Option (List MsgRef)) :=
  match res with
  | .error e => .error e
  | .ok r => .ok r.data.messages

/-! ### `gmail.js`: authorize and the interactive handshake -/

/-- The fields destructured from `credentials.installed`. -/
structure Credential where
  client_id : String
  client_secret : String
  redirect_uri : String
  deriving DecidableEq, Repr

/-- A persisted OAuth token document (opaque to this code: it is only
parsed from / serialized to the token file and passed to
`setCredentials`). -/
structure OAuthToken where
  tokenData : String
  deriving DecidableEq, Repr

/-- The `oAuth2Client` object: the credential it was built from and the
credentials applied by `setCredentials`, if any. -/
structure OAuth2Client where
  client : Credential
  credentials : Option OAuthToken
  deriving DecidableEq, Repr

/-- The environment of one `authorize()` run: the outcome of each external
effect it can perform.  Parse outcomes are functions of the text read, the
code exchange a function of the operator-typed code. -/
structure AuthEnv where
  credRead : Except JsErr String
  parseCred : String → Except JsErr Credential
  tokenRead : Except JsErr String
  parseToken : String → Except JsErr OAuthToken
  operatorCode : String
  exchange : String → Except JsErr OAuthToken
  tokenWrite : Except JsErr Unit

/-- What a run of `authorize()` did: its outcome, the final
`this.oAuth2Client`, and how many interactive prompts and token-file
writes it performed. -/
structure AuthResult where
  result : Except JsErr Unit
  oAuth2Client : Option OAuth2Client
  prompts : Nat
  writes : Nat
  deriving Repr

/-- `_getNewToken()`: builds the auth URL (a TypeError on the `null`
client when `authorize` reaches this path without having constructed one),
prompts the operator for a code (one prompt), exchanges it for a token
(failure rejects), applies it with `setCredentials` and writes it to the
token file (one write, attempted even if it then fails). -/
def getNewToken (client : Option OAuth2Client) (env : AuthEnv) : AuthResult :=
  match client with
  | none =>
      { result := .error (.typeError "Cannot read property generateAuthUrl of null"),
        oAuth2Client := none, prompts := 0, writes := 0 }
  | some c =>
      match env.exchange env.operatorCode with
      | .error e =>
          { result := .error e, oAuth2Client := some c, prompts := 1, writes := 0 }
      | .ok tok =>
          match env.tokenWrite with
          | .error e =>
              { result := .error e,
                oAuth2Client := some { c with credentials := some tok },
                prompts := 1, writes := 1 }
          | .ok _ =>
              { result := .ok (),
                oAuth2Client := some { c with credentials := some tok },
                prompts := 1, writes := 1 }

/-- `authorize()`: read and parse the credential file, construct the OAuth2
client, read and parse the token file and apply it with `setCredentials`.
The single catch at the end of the chain sends any error whose `code` is
ENOENT — whichever step raised it — to `_getNewToken`, and re-throws every
other error unchanged. -/
def authorize (env : AuthEnv) : AuthResult :=
  match env.credRead with
  | .error e =>
      if e.isEnoent then getNewToken none env
      else { result := .error e, oAuth2Client := none, prompts := 0, writes := 0 }
  | .ok credStr =>
      match env.parseCred credStr with
      | .error e =>
          if e.isEnoent then getNewToken none env
          else { result := .error e, oAuth2Client := none, prompts := 0, writes := 0 }
      | .ok cred =>
          let client : OAuth2Client := { client := cred, credentials := none }
          match env.tokenRead with
          | .error e =>
              if e.isEnoent then getNewToken (some client) env
              else { result := .error e, oAuth2Client := some client,
                     prompts := 0, writes := 0 }
          | .ok tokenStr =>
              match env.parseToken tokenStr with
              | .error e =>
                  if e.isEnoent then getNewToken (some client) env
                  else { result := .error e, oAuth2Client := some client,
                         prompts := 0, writes := 0 }
              | .ok tok =>
                  { result := .ok (),
                    oAuth2Client := some { client with credentials := some tok },
                    prompts := 0, writes := 0 }

/-! ### The main driver (`workitem` entry file) -/

/-- The (msgId, contactId) correlation object the driver builds per
message. -/
structure Pair where
  msgId : String
  contactId : Option String
  deriving DecidableEq, Repr

/-- The environment of one `processMessage(id)` call: the outcomes of its
three HTTP round trips. -/
structure MsgEnv where
  gmailRes : Except JsErr GmailGetRes
  tokenResp : FetchResp TokenJson
  postResp : FetchResp PostJson

/-- `processMessage(id)`: fetch the message, send it as a work item, pair
the original list id with the returned contact id. -/
def processMessage (env : MsgEnv) (id : String) : Except JsErr Pair :=
  match getMessage env.gmailRes with
  | .error e => .error e
  | .ok _msg =>
      match (WorkItem.sendEmail env.tokenResp env.postResp).result with
      | .error e => .error e
      | .ok contactId => .ok { msgId := id, contactId := contactId }

/-- `Promise.all`: resolves with the list of all values when every promise
resolves, rejects as soon as any promise rejects. -/
def promiseAll {ε α : Type} : List (Except ε α) → Except ε (List α)
  | [] => .ok []
  | .error e :: _ => .error e
  | .ok a :: rest =>
      match promiseAll rest with
      | .error e => .error e
      | .ok l => .ok (a :: l)

/-- The driver's batch step over the value `getMessageList` resolved with:
`msgs.forEach(...)` raises a TypeError when `msgs` is `undefined`;
otherwise one `processMessage` per listed id, joined with `Promise.all`. -/
def runBatch (msgs : Option (List MsgRef)) (proc : String → Except JsErr Pair) :
    Except JsErr (List Pair) :=
  match msgs with
  | none => .error (.typeError "Cannot read property forEach of undefined")
  | some l => promiseAll (l.map (fun m => proc m.id))

/-! ### Concrete inputs used by witness and counterexample theorems -/

/-- A simple From header used by concrete test responses. -/
def exFromHeader : Header := { name := "From", value := "x@y.zz" }

/-- A concrete get-response whose body data is the base64url text `aGVsbG8`. -/
def exRes4a : GmailGetRes :=
  { data := { id := "m1",
              payload := { headers := [exFromHeader],
                           body := { data := some "aGVsbG8" } } } }

/-- A concrete get-response with no body data field. -/
def exRes4b : GmailGetRes :=
  { data := { id := "m2",
              payload := { headers := [exFromHeader],
                           body := { data := none } } } }

/-- A concrete response whose From header is `"A B" <a@b.com>`. -/
def exRes6 : GmailGetRes :=
  { data := { id := "m3",
              payload := { headers := [⟨"From", "\x22A B\x22 <a@b.com>"⟩],
                           body := { data := none } } } }

/-- A 401 token-endpoint response. -/
def respTok401 : FetchResp TokenJson := { ok := false, status := 401, json := none }

/-- A successful token-endpoint response with both required fields. -/
def respTokFull : FetchResp TokenJson :=
  { ok := true, status := 200,
    json := some { access_token := "t", resource_server_base_uri := "u" } }

/-- A successful token-endpoint response with an empty access token. -/
def respTokNoTok : FetchResp TokenJson :=
  { ok := true, status := 200,
    json := some { access_token := "", resource_server_base_uri := "u" } }

/-- A successful token-endpoint response whose base URI ends in a slash. -/
def respTokSlash : FetchResp TokenJson :=
  { ok := true, status := 200,
    json := some { access_token := "tok",
                   resource_server_base_uri := "https://b.co/" } }

/-- A successful token-endpoint response whose base URI has no trailing
slash. -/
def respTokNoSlash : FetchResp TokenJson :=
  { ok := true, status := 200,
    json := some { access_token := "tok",
                   resource_server_base_uri := "https://api.example.com" } }

/-- A 500 work-item-endpoint response. -/
def respPost500 : FetchResp PostJson := { ok := false, status := 500, json := none }

/-- A successful work-item-endpoint response carrying a contact id. -/
def respPostC9 : FetchResp PostJson :=
  { ok := true, status := 200, json := some { contactId := some "c9" } }

/-- A successful work-item-endpoint response with no contact id field. -/
def respPostNoId : FetchResp PostJson :=
  { ok := true, status := 200, json := some { contactId := none } }

/-- A concrete get-response whose header list has no From entry. -/
def exResNoFrom : GmailGetRes :=
  { data := { id := "m4",
              payload := { headers := [⟨"Subject", "hi"⟩],
                           body := { data := some "aGVsbG8" } } } }

/-- A concrete list response for an empty inbox: the provider omitted the
`messages` field. -/
def exListEmpty : GmailListRes := { data := { messages := none } }

/-- A two-message id list. -/
def exMsgs : List MsgRef := [{ id := "id1" }, { id := "id2" }]

/-- A per-message environment in which every round trip succeeds. -/
def exMsgEnv : String → MsgEnv := fun _ =>
  { gmailRes := .ok exRes4a, tokenResp := respTokFull, postResp := respPostC9 }

/-- A per-message environment in which the work-item POST returns 500. -/
def exMsgEnvFail : String → MsgEnv := fun _ =>
  { gmailRes := .ok exRes4a, tokenResp := respTokFull, postResp := respPost500 }

/-- A trivial per-message processor used where only the batch shape is at
stake. -/
def procConst : String → Except JsErr Pair :=
  fun i => .ok { msgId := i, contactId := none }

/-- A concrete parsed credential. -/
def exCred : Credential :=
  { client_id := "cid", client_secret := "sec", redirect_uri := "uri" }

/-- A concrete OAuth token document. -/
def exTok : OAuthToken := { tokenData := "tok" }

/-- An `authorize()` environment: valid credential file, token file absent,
operator handshake and token write succeeding. -/
def envAbsent : AuthEnv :=
  { credRead := .ok "credjson", parseCred := fun _ => .ok exCred,
    tokenRead := .error .enoent, parseToken := fun _ => .error (.parseError "unused"),
    operatorCode := "code", exchange := fun _ => .ok exTok, tokenWrite := .ok () }

/-- An `authorize()` environment: valid credential file and a present,
well-formed token file. -/
def envPresent : AuthEnv :=
  { credRead := .ok "credjson", parseCred := fun _ => .ok exCred,
    tokenRead := .ok "tokjson", parseToken := fun _ => .ok exTok,
    operatorCode := "code", exchange := fun _ => .error (.exchangeErr "unused"),
    tokenWrite := .ok () }

/-- An `authorize()` environment in which the credential file itself is
absent: its read rejects with the ENOENT-coded error. -/
def envMissingCred : AuthEnv :=
  { credRead := .error .enoent, parseCred := fun _ => .error (.parseError "unused"),
    tokenRead := .error (.fsOther "unused"),
    parseToken := fun _ => .error (.parseError "unused"),
    operatorCode := "code", exchange := fun _ => .ok exTok, tokenWrite := .ok () }

/-- An `authorize()` environment in which the credential file is present
but malformed: its parse throws. -/
def envParseFail : AuthEnv :=
  { credRead := .ok "not json", parseCred := fun _ => .error (.parseError "bad json"),
    tokenRead := .error (.fsOther "unused"),
    parseToken := fun _ => .error (.parseError "unused"),
    operatorCode := "code", exchange := fun _ => .ok exTok, tokenWrite := .ok () }

/-! ### Theorems -/

theorem b64val_of_b64urlval {c : Char} {n : Nat} (h : b64urlval c = some n) :
    b64val c = some n := by
  unfold b64urlval at h
  unfold b64val
  split_ifs at h ⊢ <;> simp_all

theorem filterMap_url_eq_b64 (l : List Char)
    (h : ∀ c ∈ l, (b64urlval c).isSome) :
    l.filterMap b64urlval = l.filterMap b64val := by
  induction l with
  | nil => rfl
  | cons c rest ih =>
      have hc := h c (List.mem_cons_self c rest)
      obtain ⟨n, hn⟩ := Option.isSome_iff_exists.mp hc
      simp only [List.filterMap_cons, hn, b64val_of_b64urlval hn]
      rw [ih (fun x hx => h x (List.mem_cons_of_mem c hx))]

theorem atob_of_base64urlDecode {s p : String} (h : base64urlDecode s = some p) :
    atob s = p := by
  unfold base64urlDecode at h
  split_ifs at h with hall
  · rw [Option.some_inj] at h
    unfold atob
    rw [← filterMap_url_eq_b64 s.data
      (fun c hc => List.all_eq_true.mp hall c hc)]
    exact h

theorem getMessage_eq (res : GmailGetRes) (h : Header)
    (hh : res.data.payload.headers.find? (fun o => o.name == "From") = some h) :
    getMessage (.ok res) = .ok {
      id := res.data.id,
      sender := match findAddr h.value.data with
                | some m => String.mk m
                | none => "",
      payload := match res.data.payload.body.data with
                 | some s => if s ≠ "" then atob s else ""
                 | none => "" } := by
  simp only [getMessage, hh]

/-- Claim C4: for every message fetched by `getMessage` (whose From header
exists, so the header lookup does not raise), if the body data field is
present its base64url decoding is returned as the payload, and if it is
absent or empty the payload is the empty string. -/
theorem getMessage_payload_decode (res : GmailGetRes) (h : Header)
    (hh : res.data.payload.headers.find? (fun o => o.name == "From") = some h) :
    (∀ d p, res.data.payload.body.data = some d → base64urlDecode d = some p →
        ∃ m, getMessage (.ok res) = .ok m ∧ m.payload = p) ∧
    ((res.data.payload.body.data = none ∨ res.data.payload.body.data = some "") →
        ∃ m, getMessage (.ok res) = .ok m ∧ m.payload = "") := by
  constructor
  · intro d p hd hp
    refine ⟨_, getMessage_eq res h hh, ?_⟩
    simp only [hd]
    by_cases hde : d = ""
    · subst hde
      have : p = "" := by
        unfold base64urlDecode at hp
        simpa using hp.symm
      simp [this]
    · simp [hde, atob_of_base64urlDecode hp]
  · intro hd
    refine ⟨_, getMessage_eq res h hh, ?_⟩
    rcases hd with hd | hd <;> simp [hd]

/-- A concrete run of the C4 theorem: a message whose body data is the
base64url text `aGVsbG8` decodes to payload `hello`, and one with no body
data yields the empty payload. -/
theorem getMessage_payload_decode_witness :
    (∃ m, getMessage (.ok exRes4a) = .ok m ∧ m.payload = "hello") ∧
    (∃ m, getMessage (.ok exRes4b) = .ok m ∧ m.payload = "") := by
  constructor
  · exact (getMessage_payload_decode exRes4a exFromHeader rfl).1
      "aGVsbG8" "hello" rfl (by decide)
  · exact (getMessage_payload_decode exRes4b exFromHeader rfl).2 (Or.inl rfl)

/-- What the spec calls "email-address-shaped": the text the regex
`[a-zA-Z0-9._-]+@[a-zA-Z0-9._-]+\.[a-zA-Z0-9._-]+` accepts — a nonempty
run of address characters, an `@`, and a nonempty run of address
characters containing a `.` at an interior position. -/
def addrShaped (m : List Char) : Prop :=
  ∃ lo dom, m = lo ++ '@' :: dom ∧ lo ≠ [] ∧
    (∀ c ∈ lo, isAddrChar c) ∧ (∀ c ∈ dom, isAddrChar c) ∧
    hasInteriorDot dom = true

theorem tryAt_shape {l m : List Char} (h : tryAt l = some m) :
    (∃ t, l = m ++ t) ∧ addrShaped m := by
  unfold tryAt at h
  split_ifs at h with hemp
  split at h
  · rename_i rest2 heq
    split_ifs at h with hdot
    rw [Option.some_inj] at h
    subst h
    constructor
    · refine ⟨rest2.dropWhile isAddrChar, ?_⟩
      conv_lhs => rw [← List.takeWhile_append_dropWhile (p := isAddrChar) (l := l)]
      rw [heq]
      simp only [List.append_assoc, List.cons_append]
      rw [List.takeWhile_append_dropWhile]
    · exact ⟨l.takeWhile isAddrChar, rest2.takeWhile isAddrChar, rfl,
        by simpa [List.isEmpty_iff] using hemp,
        fun c hc => List.mem_takeWhile_imp hc,
        fun c hc => List.mem_takeWhile_imp hc, hdot⟩
  · exact absurd h (by simp)

theorem findAddr_shape {l m : List Char} (h : findAddr l = some m) :
    (∃ s t, l = s ++ m ++ t) ∧ addrShaped m := by
  induction l with
  | nil => exact absurd h (by simp [findAddr])
  | cons c rest ih =>
      rw [findAddr] at h
      rcases hta : tryAt (c :: rest) with _ | m'
      · rw [hta] at h
        obtain ⟨⟨s, t, hst⟩, hsh⟩ := ih h
        exact ⟨⟨c :: s, t, by simp [hst]⟩, hsh⟩
      · rw [hta] at h
        rw [Option.some_inj] at h
        subst h
        obtain ⟨⟨t, ht⟩, hsh⟩ := tryAt_shape hta
        exact ⟨⟨[], t, by simpa using ht⟩, hsh⟩

/-- Claim C6: for every message whose From header is present, `getMessage`
returns as its `from` field the regex's first match in the header value —
a substring of the value that is email-address-shaped — and the empty
string when no substring matches. -/
theorem getMessage_from_first_match (res : GmailGetRes) (h : Header)
    (hh : res.data.payload.headers.find? (fun o => o.name == "From") = some h) :
    (∀ m, findAddr h.value.data = some m →
        (∃ msg, getMessage (.ok res) = .ok msg ∧ msg.sender = String.mk m) ∧
        (∃ s t, h.value.data = s ++ m ++ t) ∧ addrShaped m) ∧
    (findAddr h.value.data = none →
        ∃ msg, getMessage (.ok res) = .ok msg ∧ msg.sender = "") := by
  constructor
  · intro m hm
    refine ⟨⟨_, getMessage_eq res h hh, ?_⟩, findAddr_shape hm⟩
    simp only [hm]
  · intro hm
    refine ⟨_, getMessage_eq res h hh, ?_⟩
    simp only [hm]

/-- A concrete run of the C6 theorem: header `From: "A B" <a@b.com>`
yields `from = "a@b.com"`. -/
theorem getMessage_from_first_match_witness :
    ∃ msg, getMessage (.ok exRes6) = .ok msg ∧ msg.sender = "a@b.com" := by
  have := ((getMessage_from_first_match exRes6 ⟨"From", "\x22A B\x22 <a@b.com>"⟩
    rfl).1 "a@b.com".data (by decide)).1
  exact this

/-- Claim C5 as frozen is false at a base resource URI with no trailing
slash: `sendEmail` interpolates the base URI and the `services/...` path
with no slash between them, so for base URI `https://api.example.com`
the POSTed URL is `https://api.example.comservices/...`, not
`https://api.example.com/services/...`. -/
theorem sendEmail_post_url_counterexample :
    ∃ req, (WorkItem.sendEmail respTokNoSlash respPostC9).postRequest = some req ∧
      req.url = "https://api.example.comservices/v13.0/interactions/work-items" ∧
      req.url ≠ "https://api.example.com/services/v13.0/interactions/work-items" := by
  exact ⟨_, rfl, rfl, by decide⟩

/-- Claim C5 (amended): for every successfully fetched ticket token, the
work-item request is POSTed to the direct concatenation of the token's
base resource URI and `services/v13.0/interactions/work-items`, with no
separator inserted (this equals the spec's `{baseUrl}/services/...` form
exactly when the base URI already ends with a slash). -/
theorem sendEmail_post_url (tokenResp : FetchResp TokenJson)
    (postResp : FetchResp PostJson) (j : TokenJson)
    (hj : WorkItem.getToken tokenResp = .ok j) :
    ∃ req, (WorkItem.sendEmail tokenResp postResp).postRequest = some req ∧
      req.url = j.resource_server_base_uri ++
        "services/" ++ wiVersion ++ "/interactions/work-items" := by
  unfold WorkItem.sendEmail
  rw [hj]
  exact ⟨_, rfl, by simp [WorkItem.postWorkItemRequest, workItemUrl]⟩

/-- A concrete run of the amended C5 theorem: base URI `https://b.co/`
produces the URL `https://b.co/services/v13.0/interactions/work-items`. -/
theorem sendEmail_post_url_witness :
    ∃ req, (WorkItem.sendEmail respTokSlash respPostC9).postRequest = some req ∧
      req.url = "https://b.co/" ++
        "services/" ++ wiVersion ++ "/interactions/work-items" := by
  exact sendEmail_post_url respTokSlash respPostC9
    { access_token := "tok", resource_server_base_uri := "https://b.co/" } rfl

/-- Claim C7: `getToken` sends its client-credentials grant with basic-auth
header value `'basic '` plus the base64 of `{app}@{vendor}:{secret}`; a
non-successful HTTP response fails with the status-carrying error, a
successful response missing (or empty in) either the access-token field or
the base-resource-URL field fails with the protocol error, and a successful
response with both fields is returned whole. -/
theorem getToken_behavior (app vendor key poc : String)
    (resp : FetchResp TokenJson) :
    (WorkItem.make app vendor key poc).getTokenRequest.authHeader =
        "basic " ++ btoa (app ++ "@" ++ vendor ++ ":" ++ key) ∧
    (resp.ok = false → WorkItem.getToken resp = .error (.api resp.status)) ∧
    (∀ j, resp.ok = true → resp.json = some j → j.access_token ≠ "" →
        j.resource_server_base_uri ≠ "" → WorkItem.getToken resp = .ok j) ∧
    (∀ j, resp.ok = true → resp.json = some j →
        (j.access_token = "" ∨ j.resource_server_base_uri = "") →
        WorkItem.getToken resp = .error .protocol) := by
  refine ⟨rfl, ?_, ?_, ?_⟩
  · intro hok
    simp [WorkItem.getToken, hok]
  · intro j hok hj h1 h2
    simp [WorkItem.getToken, hok, hj, h1, h2]
  · intro j hok hj hmiss
    rcases hmiss with hm | hm <;> simp [WorkItem.getToken, hok, hj, hm]

/-- A concrete run of the C7 theorem: the header for app `a`, vendor `v`,
secret `s`; a 401 response failing with status 401; a success response
with both fields returned whole; a success response with an empty access
token failing with the protocol error. -/
theorem getToken_behavior_witness :
    (WorkItem.make "a" "v" "s" "p").getTokenRequest.authHeader =
        "basic " ++ btoa ("a" ++ "@" ++ "v" ++ ":" ++ "s") ∧
    WorkItem.getToken respTok401 = .error (.api 401) ∧
    WorkItem.getToken respTokFull =
        .ok { access_token := "t", resource_server_base_uri := "u" } ∧
    WorkItem.getToken respTokNoTok = .error .protocol := by
  refine ⟨(getToken_behavior "a" "v" "s" "p" respTok401).1, ?_, ?_, ?_⟩
  · exact (getToken_behavior "a" "v" "s" "p" respTok401).2.1 rfl
  · exact (getToken_behavior "a" "v" "s" "p" respTokFull).2.2.1
      _ rfl rfl (by decide) (by decide)
  · exact (getToken_behavior "a" "v" "s" "p" respTokNoTok).2.2.2
      _ rfl rfl (Or.inl rfl)

/-- Claim C8: `postWorkItem` fails with the status-carrying error on every
non-2xx (non-ok) response; on a successful response it returns the body's
`contactId` field verbatim, and when that field is absent the result is a
defined success holding the undefined value, not an error. -/
theorem postWorkItem_behavior (resp : FetchResp PostJson) :
    (resp.ok = false → WorkItem.postWorkItem resp = .error (.api resp.status)) ∧
    (∀ j, resp.ok = true → resp.json = some j →
        WorkItem.postWorkItem resp = .ok j.contactId) ∧
    (∀ j, resp.ok = true → resp.json = some j → j.contactId = none →
        WorkItem.postWorkItem resp = .ok none) := by
  refine ⟨?_, ?_, ?_⟩
  · intro hok
    simp [WorkItem.postWorkItem, hok]
  · intro j hok hj
    simp [WorkItem.postWorkItem, hok, hj]
  · intro j hok hj hc
    simp [WorkItem.postWorkItem, hok, hj, hc]

/-- A concrete run of the C8 theorem: a 500 response fails with status 500;
a success response with `contactId = "c9"` returns it; a success response
with no `contactId` field returns the undefined value. -/
theorem postWorkItem_behavior_witness :
    WorkItem.postWorkItem respPost500 = .error (.api 500) ∧
    WorkItem.postWorkItem respPostC9 = .ok (some "c9") ∧
    WorkItem.postWorkItem respPostNoId = .ok none := by
  refine ⟨?_, ?_, ?_⟩
  · exact (postWorkItem_behavior respPost500).1 rfl
  · exact (postWorkItem_behavior respPostC9).2.1 _ rfl rfl
  · exact (postWorkItem_behavior respPostNoId).2.2 _ rfl rfl rfl

theorem promiseAll_ok_of_all_ok {ε α : Type} (xs : List (Except ε α))
    (h : ∀ x ∈ xs, ∃ a, x = .ok a) :
    ∃ l, promiseAll xs = .ok l ∧ l.length = xs.length ∧
      ∀ p ∈ l, Except.ok p ∈ xs := by
  induction xs with
  | nil => exact ⟨[], rfl, rfl, by simp⟩
  | cons x rest ih =>
      obtain ⟨a, ha⟩ := h x (List.mem_cons_self x rest)
      obtain ⟨l, hl, hlen, hmem⟩ := ih (fun y hy => h y (List.mem_cons_of_mem x hy))
      subst ha
      refine ⟨a :: l, ?_, by simp [hlen], ?_⟩
      · simp [promiseAll, hl]
      · intro p hp
        rcases List.mem_cons.mp hp with hp | hp
        · subst hp
          exact List.mem_cons_self _ _
        · exact List.mem_cons_of_mem _ (hmem p hp)

theorem promiseAll_error_of_mem {ε α : Type} (xs : List (Except ε α)) (e : ε)
    (h : Except.error e ∈ xs) : ∃ e2, promiseAll xs = .error e2 := by
  induction xs with
  | nil => simp at h
  | cons x rest ih =>
      rcases List.mem_cons.mp h with h1 | h1
      · rw [← h1]
        exact ⟨e, rfl⟩
      · obtain ⟨e2, he2⟩ := ih h1
        cases x with
        | error e3 => exact ⟨e3, rfl⟩
        | ok a => exact ⟨e2, by simp [promiseAll, he2]⟩

theorem processMessage_msgId (env : MsgEnv) (i : String) (p : Pair)
    (h : processMessage env i = .ok p) : p.msgId = i := by
  unfold processMessage at h
  split at h
  · exact absurd h (by simp)
  · split at h
    · exact absurd h (by simp)
    · injection h with h2
      subst h2
      rfl

/-- Claim C3: the batch over N listed message ids yields exactly N
(msgId, contactId) pairs — each produced by a successful fetch-and-post of
one listed id — when every per-message operation succeeds, and the whole
batch result is a failure as soon as any single per-message operation
fails. -/
theorem runBatch_all_or_nothing (msgs : List MsgRef) (env : String → MsgEnv) :
    ((∀ m ∈ msgs, ∃ p, processMessage (env m.id) m.id = .ok p) →
        ∃ l, runBatch (some msgs) (fun i => processMessage (env i) i) = .ok l ∧
          l.length = msgs.length ∧
          ∀ p ∈ l, ∃ m ∈ msgs,
            processMessage (env m.id) m.id = .ok p ∧ p.msgId = m.id) ∧
    ((∃ m ∈ msgs, ∃ e, processMessage (env m.id) m.id = .error e) →
        ∃ e, runBatch (some msgs) (fun i => processMessage (env i) i) = .error e) := by
  constructor
  · intro h
    obtain ⟨l, hl, hlen, hmem⟩ := promiseAll_ok_of_all_ok
      (msgs.map (fun m => processMessage (env m.id) m.id))
      (by
        intro x hx
        obtain ⟨m, hm, rfl⟩ := List.mem_map.mp hx
        exact h m hm)
    refine ⟨l, ?_, by simpa using hlen, ?_⟩
    · simpa [runBatch] using hl
    · intro p hp
      obtain ⟨m, hm, hok⟩ := List.mem_map.mp (hmem p hp)
      exact ⟨m, hm, hok, processMessage_msgId _ _ _ hok⟩
  · rintro ⟨m, hm, e, he⟩
    obtain ⟨e2, he2⟩ := promiseAll_error_of_mem
      (msgs.map (fun m => processMessage (env m.id) m.id)) e
      (by
        rw [← he]
        exact List.mem_map_of_mem _ hm)
    exact ⟨e2, by simpa [runBatch] using he2⟩

/-- A concrete run of the C3 theorem: with two listed ids and every round
trip succeeding the batch yields two pairs; with the work-item POST
failing with 500 the batch result is a failure. -/
theorem runBatch_all_or_nothing_witness :
    (∃ l, runBatch (some exMsgs) (fun i => processMessage (exMsgEnv i) i) = .ok l ∧
        l.length = 2) ∧
    (∃ e, runBatch (some exMsgs) (fun i => processMessage (exMsgEnvFail i) i) =
        .error e) := by
  constructor
  · obtain ⟨l, hl, hlen, _⟩ := (runBatch_all_or_nothing exMsgs exMsgEnv).1
      (by
        intro m hm
        rcases (by simpa [exMsgs] using hm : m = ⟨"id1"⟩ ∨ m = ⟨"id2"⟩) with rfl | rfl
        · exact ⟨_, rfl⟩
        · exact ⟨_, rfl⟩)
    exact ⟨l, hl, hlen⟩
  · exact (runBatch_all_or_nothing exMsgs exMsgEnvFail).2
      ⟨⟨"id1"⟩, by simp [exMsgs], .api 500, rfl⟩

/-- Claim C9: `getMessageList` returns the provider response's `messages`
field verbatim; when that field is absent (empty inbox) the batch step
raises a TypeError and the run fails — it never yields an empty pair
list. -/
theorem getMessageList_verbatim_empty_inbox (res : GmailListRes)
    (proc : String → Except JsErr Pair) :
    getMessageList (.ok res) = .ok res.data.messages ∧
    (res.data.messages = none →
        runBatch res.data.messages proc =
          .error (.typeError "Cannot read property forEach of undefined") ∧
        ∀ l, runBatch res.data.messages proc ≠ .ok l) := by
  refine ⟨rfl, ?_⟩
  intro hm
  rw [hm]
  exact ⟨rfl, fun l h => by simp [runBatch] at h⟩

/-- A concrete run of the C9 theorem: an empty-inbox list response yields
the undefined value, and the batch over it fails rather than yielding zero
pairs. -/
theorem getMessageList_verbatim_empty_inbox_witness :
    getMessageList (.ok exListEmpty) = .ok none ∧
    runBatch none procConst =
      .error (.typeError "Cannot read property forEach of undefined") ∧
    runBatch none procConst ≠ .ok [] := by
  have h := getMessageList_verbatim_empty_inbox exListEmpty procConst
  exact ⟨h.1, (h.2 rfl).1, (h.2 rfl).2 []⟩

/-- Claim C1: a run of `authorize()` with a valid credential file performs,
when the token file is absent (its read rejects with the ENOENT-coded
error), exactly one interactive operator prompt, and — provided the
operator handshake's code exchange succeeds — exactly one token
persistence write (attempted even if the write itself then fails); when
the token file is present and well-formed it performs zero prompts and
zero writes and applies the persisted token to the session. -/
theorem authorize_prompts_writes (env : AuthEnv) (cs : String) (cr : Credential)
    (hcred : env.credRead = .ok cs) (hparse : env.parseCred cs = .ok cr) :
    (env.tokenRead = .error .enoent →
        (authorize env).prompts = 1 ∧
        ((∃ t, env.exchange env.operatorCode = .ok t) →
            (authorize env).writes = 1)) ∧
    (∀ ts tok, env.tokenRead = .ok ts → env.parseToken ts = .ok tok →
        (authorize env).prompts = 0 ∧ (authorize env).writes = 0 ∧
        (authorize env).oAuth2Client =
          some { client := cr, credentials := some tok }) := by
  constructor
  · intro htok
    have e : authorize env =
        getNewToken (some { client := cr, credentials := none }) env := by
      simp [authorize, hcred, hparse, htok, JsErr.isEnoent]
    rw [e]
    constructor
    · unfold getNewToken
      rcases hx : env.exchange env.operatorCode with e2 | t
      · simp [hx]
      · rcases hw : env.tokenWrite with e3 | u <;> simp [hx, hw]
    · rintro ⟨t, hx⟩
      unfold getNewToken
      rcases hw : env.tokenWrite with e3 | u <;> simp [hx, hw]
  · intro ts tok hts htok2
    simp [authorize, hcred, hparse, hts, htok2]

/-- A concrete run of the C1 theorem: with the token file absent and a
successful handshake, one prompt and one write; with a well-formed token
file present, zero prompts, zero writes, and the persisted token applied. -/
theorem authorize_prompts_writes_witness :
    ((authorize envAbsent).prompts = 1 ∧ (authorize envAbsent).writes = 1) ∧
    ((authorize envPresent).prompts = 0 ∧ (authorize envPresent).writes = 0 ∧
     (authorize envPresent).oAuth2Client =
       some { client := exCred, credentials := some exTok }) := by
  constructor
  · have h := (authorize_prompts_writes envAbsent "credjson" exCred rfl rfl).1 rfl
    exact ⟨h.1, h.2 ⟨exTok, rfl⟩⟩
  · exact (authorize_prompts_writes envPresent "credjson" exCred rfl rfl).2
      "tokjson" exTok rfl rfl

/-- Claim C2 meets a code bug: `authorize()`'s catch tests only
`err.code === 'ENOENT'`, so a missing credential file — whose read also
rejects with the ENOENT-coded error — is routed into `_getNewToken`
exactly like a missing token file, where the never-constructed (null)
OAuth2 client raises a TypeError; the original error is neither logged by
`authorize` nor re-raised unchanged, contradicting the claim (and the
source's own comment, which reserves that branch for a missing token
file).  A malformed credential file, by contrast, is re-raised unchanged
as claimed. -/
theorem authorize_missing_credential_diverts :
    (authorize envMissingCred).result =
      .error (.typeError "Cannot read property generateAuthUrl of null") ∧
    (authorize envMissingCred).result ≠ .error JsErr.enoent ∧
    (authorize envMissingCred).prompts = 0 ∧
    (authorize envMissingCred).writes = 0 ∧
    (authorize envParseFail).result = .error (.parseError "bad json") := by
  refine ⟨rfl, ?_, rfl, rfl, rfl⟩
  intro h
  simp [authorize, envMissingCred, getNewToken, JsErr.isEnoent] at h

/-- Claim C10: on a message whose header list has no From entry,
`getMessage` fails — the unguarded `.find(...).value` raises a
TypeError — and in particular never returns a MailMessage with an empty
`from`; the empty-string fallback requires a From header to exist (it is
then the no-match case, per the C6 theorem). -/
theorem getMessage_missing_from_raises (res : GmailGetRes)
    (hh : res.data.payload.headers.find? (fun o => o.name == "From") = none) :
    getMessage (.ok res) =
      .error (.typeError "Cannot read property value of undefined") ∧
    ∀ msg, getMessage (.ok res) ≠ .ok msg := by
  have e : getMessage (.ok res) =
      .error (.typeError "Cannot read property value of undefined") := by
    simp [getMessage, hh]
  exact ⟨e, fun msg h => by rw [e] at h; exact absurd h (by simp)⟩

/-- A concrete run of the C10 theorem: a message carrying only a Subject
header makes `getMessage` fail with the TypeError, not return an empty
`from`. -/
theorem getMessage_missing_from_raises_witness :
    getMessage (.ok exResNoFrom) =
      .error (.typeError "Cannot read property value of undefined") ∧
    ∀ msg, getMessage (.ok exResNoFrom) ≠ .ok msg := by
  exact getMessage_missing_from_raises exResNoFrom rfl
